import Mathlib

/-!
Shallow embedding of `bot.py` (scheduled quiz bot): the question data model,
the choice-token encoder/decoder, the result renderer, the question store,
the callback resolver and the batch dispatcher, together with proofs of the
specification's claims about them.
-/

namespace QuizBot

/-! ## Decimal digits and Python-style integer printing/parsing

`digitChar`, `natToDigits` and `intToChars` embed Python's `str(int)` as used
in the f-string `f"{chapter}|{question['id']}|{i}"` (bot.py line 76).
`pyDigits`/`pyIntChars` embed Python's `int(str)` (bot.py line 131),
including its stripping of surrounding whitespace, optional sign, and
underscores allowed between digits. -/

/-- The decimal digit character for a digit value (values ≥ 10 never arise). -/
def digitChar : Nat → Char
  | 0 => '0' | 1 => '1' | 2 => '2' | 3 => '3' | 4 => '4'
  | 5 => '5' | 6 => '6' | 7 => '7' | 8 => '8' | _ => '9'

/-- Numeric value of a decimal digit character. -/
def digitVal (c : Char) : Nat := c.toNat - 48

/-- Little-endian decimal digits of a natural number (at least one digit). -/
def natToDigitsRev (n : Nat) : List Char :=
  if h : n < 10 then [digitChar n]
  else digitChar (n % 10) :: natToDigitsRev (n / 10)
termination_by n
decreasing_by
  exact Nat.div_lt_self (by omega) (by omega)

/-- Big-endian decimal representation of a natural number, as Python's `str`. -/
def natToDigits (n : Nat) : List Char := (natToDigitsRev n).reverse

/-- Python `str(i)` for an integer `i`, as a list of characters. -/
def intToChars (i : Int) : List Char :=
  if i < 0 then '-' :: natToDigits i.natAbs else natToDigits i.toNat

/-- Step of big-endian decimal accumulation. -/
def digitStep (acc : Nat) (c : Char) : Nat := 10 * acc + digitVal c

/-- Parses the digit part of a Python `int` literal after the first digit:
digits with single underscores allowed between digits. -/
def pyDigitsGo (acc : Nat) : List Char → Option Nat
  | [] => some acc
  | c :: rest =>
    if c = '_' then
      match rest with
      | d :: rest2 => if d.isDigit then pyDigitsGo (digitStep acc d) rest2 else none
      | [] => none
    else if c.isDigit then pyDigitsGo (digitStep acc c) rest
    else none

/-- Parses a Python decimal digit sequence (`digit (["_"] digit)*`). -/
def pyDigits : List Char → Option Nat
  | [] => none
  | c :: rest => if c.isDigit then pyDigitsGo (digitVal c) rest else none

/-- Drops leading characters satisfying `p` (helper for `trimChars`). -/
def dropLeading (p : Char → Bool) : List Char → List Char
  | [] => []
  | c :: rest => if p c then dropLeading p rest else c :: rest

/-- Python `str.strip()`: removes surrounding whitespace. -/
def trimChars (l : List Char) : List Char :=
  ((dropLeading Char.isWhitespace l).reverse.dropWhile Char.isWhitespace).reverse

/-- Python `int(s)`: strips whitespace, reads an optional sign and a decimal
digit sequence; `none` models `ValueError`. -/
def pyIntChars (l : List Char) : Option Int :=
  match trimChars l with
  | [] => none
  | c :: rest =>
    if c = '+' then (pyDigits rest).map Int.ofNat
    else if c = '-' then (pyDigits rest).map (fun n => -(Int.ofNat n))
    else (pyDigits (c :: rest)).map Int.ofNat

/-- Python `s.split(sep)` for a single-character separator: splits the
character list at every occurrence of `sep`, keeping empty fields. -/
def splitOnChar (sep : Char) : List Char → List (List Char)
  | [] => [[]]
  | c :: rest =>
    if c = sep then [] :: splitOnChar sep rest
    else
      match splitOnChar sep rest with
      | [] => [[c]]
      | g :: gs => (c :: g) :: gs

/-! ## Data model (spec §3, question file format §6)

`QOption` embeds one element of a question's `options` array: `correct`
defaults to `false` when absent (Python's truthy `o.get("correct")`), and
`explanation` is optional (`o.get("explanation", "")` supplies `""`). -/

/-- One answer option of a question. -/
structure QOption where
  text : String
  correct : Bool
  explanation : Option String
deriving DecidableEq, Repr

/-- One quiz question: unique id within its chapter, text, ordered options. -/
structure Question where
  id : Int
  question : String
  options : List QOption
deriving DecidableEq, Repr

/-! ## Choice token: encoder (bot.py `build_keyboard`) and decoder
(bot.py `answer_callback` lines 130-131) -/

/-- The callback token `f"{chapter}|{question['id']}|{i}"` (bot.py line 76). -/
def encodeToken (chapter : String) (qid : Int) (idx : Int) : String :=
  String.mk (chapter.data ++ ('|' :: (intToChars qid ++ ('|' :: intToChars idx))))

/-- Embeds `build_keyboard`: one `(label, token)` row per option, in option
order, the label being the option's display text (bot.py lines 72-78). -/
def build_keyboard (question : Question) (chapter : String) : List (String × String) :=
  question.options.enum.map fun p => (p.2.text, encodeToken chapter question.id (p.1 : Int))

/-- Embeds the token decoding of `answer_callback`:
`chapter, qid, opt_index = query.data.split("|")` followed by
`int(qid); int(opt_index)`; `none` models the `ValueError` raised when the
split does not yield exactly three fields or a numeric field fails to parse
(the spec's `MalformedTokenError`). -/
def decodeToken (s : String) : Option (String × Int × Int) :=
  match splitOnChar '|' s.data with
  | [a, b, c] =>
    match pyIntChars b, pyIntChars c with
    | some qid, some idx => some (String.mk a, qid, idx)
    | _, _ => none
  | _ => none

/-- A token string the decoder must reject: its split is not exactly three
fields, or a numeric field does not parse as an integer. -/
def malformedToken (s : String) : Bool :=
  match splitOnChar '|' s.data with
  | [_, b, c] => (pyIntChars b).isNone || (pyIntChars c).isNone
  | _ => true

/-! ## Result renderer (bot.py `format_result_text`) -/

/-- Python sequence indexing `xs[i]`: negative indices count from the end;
`none` models `IndexError` (the spec's `InvalidSelectionError`). -/
def pyGet {α : Type} (xs : List α) (i : Int) : Option α :=
  if 0 ≤ i then xs.get? i.toNat
  else if -i ≤ (xs.length : Int) then xs.get? (xs.length - (-i).toNat)
  else none

/-- Embeds `next((i for i, o in enumerate(question["options"]) if
o.get("correct")), None)`: index of the first option marked correct. -/
def correct_index : List QOption → Option Nat
  | [] => none
  | o :: rest => if o.correct then some 0 else (correct_index rest).map (· + 1)

/-- The marker chosen for the option at index `i` (bot.py lines 86-92):
`✅` when `i` equals the correct index, else `❌` when `i` equals the
selected index, else `▫️`. Comparisons follow Python: `i == None` is falsy. -/
def markerFor (ci : Option Nat) (selected : Int) (i : Nat) : String :=
  if ci = some i then "✅"
  else if (i : Int) = selected then "❌"
  else "▫️"

/-- The loop body of `format_result_text` starting at index `i`: one line
`f"{prefix} {opt['text']}"` per option. -/
def optionLinesFrom (ci : Option Nat) (selected : Int) (i : Nat) : List QOption → List String
  | [] => []
  | o :: rest => (markerFor ci selected i ++ " " ++ o.text) :: optionLinesFrom ci selected (i + 1) rest

/-- The option lines of `format_result_text`, in original option order. -/
def optionLines (opts : List QOption) (selected : Int) : List String :=
  optionLinesFrom (correct_index opts) selected 0 opts

/-- Python `"\n".join(lines)`. -/
def joinLines : List String → String
  | [] => ""
  | [x] => x
  | x :: y :: rest => x ++ "\n" ++ joinLines (y :: rest)

/-- Failure of the result renderer: the `IndexError` raised by
`question["options"][selected_index]`, the spec's `InvalidSelectionError`. -/
inductive RenderError where
  | invalidSelection
deriving DecidableEq, Repr

/-- Embeds `format_result_text` (bot.py lines 81-97): header line, one marked
line per option, then the explanation of the *selected* option (empty string
when absent). An out-of-range `selected_index` raises before anything is
returned, so the error carries no partial output. -/
def format_result_text (q : Question) (selected : Int) : Except RenderError String :=
  match pyGet q.options selected with
  | none => .error .invalidSelection
  | some sel =>
    .ok (joinLines (("<b>❓ " ++ q.question ++ "</b>\n") ::
      (optionLines q.options selected ++ ["\n💡 " ++ sel.explanation.getD ""])))

/-! ## Question store (bot.py `load_questions`) -/

/-- Failure of the question store: `FileNotFoundError` (the spec's
`NotFoundError`) or `requests.raise_for_status` (the spec's
`RemoteFetchError`, carrying the HTTP status). -/
inductive LoadError where
  | notFound
  | remoteFetch (status : Nat)
deriving DecidableEq, Repr

/-- The store's external collaborators: the local `questions/` directory
(`some` = the parsed contents of `<chapter>.json` when the file exists), the
configured `GITHUB_RAW_BASE` (already `/`-terminated, `none` when unset), and
the HTTP GET returning a status code and parsed body. -/
structure LoadEnv where
  localFile : String → Option (List Question)
  rawBase : Option String
  fetch : String → Nat × List Question

/-- Embeds `load_questions` (bot.py lines 58-69): local file first; otherwise
remote fetch from `f"{GITHUB_RAW_BASE}{chapter}.json"` when a base is
configured, with `raise_for_status` failing on 4xx/5xx; otherwise
`FileNotFoundError`. -/
def load_questions (env : LoadEnv) (chapter : String) : Except LoadError (List Question) :=
  match env.localFile chapter with
  | some qs => .ok qs
  | none =>
    match env.rawBase with
    | some base =>
      let r := env.fetch (base ++ chapter ++ ".json")
      if 400 ≤ r.1 ∧ r.1 < 600 then .error (.remoteFetch r.1) else .ok r.2
    | none => .error .notFound

/-! ## Callback resolver (bot.py `answer_callback`) -/

/-- The user-visible text put in place of the message by `answer_callback`
(bot.py lines 126-141). The broad `except` converts any failure — malformed
token, load failure, invalid selection — into the generic error text; a
well-formed token whose question id is absent yields the not-found text. -/
def answer_callback (env : LoadEnv) (data : String) : String :=
  match decodeToken data with
  | none => "An error occurred while processing your answer."
  | some (chapter, qid, optIndex) =>
    match load_questions env chapter with
    | .error _ => "An error occurred while processing your answer."
    | .ok questions =>
      match questions.find? (fun qq => qq.id == qid) with
      | none => "Question data not found."
      | some question =>
        match format_result_text question optIndex with
        | .error _ => "An error occurred while processing your answer."
        | .ok newText => newText

/-! ## Selector and dispatcher (bot.py `send_questions`, `send_one_question`) -/

/-- Embeds `random.choice(CHAPTERS) if MODE == "random" else CHAPTERS[0]`
(bot.py line 118); `r` stands for the random draw, and `none` models the
`IndexError` both branches raise on an empty chapter list. -/
def pick_chapter (mode : String) (chapters : List String) (r : Nat) : Option String :=
  if mode = "random" then chapters.get? (r % chapters.length)
  else chapters.get? 0

/-- Outcome of one send iteration: the message was handed to the transport,
or the failure was caught and logged by `send_one_question`'s `except`. -/
inductive SendOutcome where
  | sent (chapter : String) (qid : Int)
  | loggedFailure
deriving DecidableEq, Repr

/-- The dispatcher's configuration and external collaborators:
`QUESTIONS_PER_RUN`, `MODE`, `CHAPTERS`, the random draws used for the
chapter and the question of iteration `k`, the question store, and whether
the transport send of iteration `k` succeeds. -/
structure DispatchEnv where
  questionsPerRun : Int
  mode : String
  chapters : List String
  chapterRand : Nat → Nat
  questionRand : Nat → Nat
  load : String → Except LoadError (List Question)
  sendOk : Nat → Bool

/-- Embeds `send_one_question` (bot.py lines 100-113): loads the chapter,
picks a random question, sends it; every failure inside (load, empty
question list, transport) is caught and logged, never propagated. -/
def send_one_question (env : DispatchEnv) (k : Nat) (chapter : String) : SendOutcome :=
  match env.load chapter with
  | .error _ => .loggedFailure
  | .ok questions =>
    match questions.get? (env.questionRand k % questions.length) with
    | none => .loggedFailure
    | some q => if env.sendOk k then .sent chapter q.id else .loggedFailure

/-- The `for` loop of `send_questions`, with `remaining` iterations left and
`k` the current iteration index. The chapter pick happens *outside*
`send_one_question`'s `try`, so its failure (empty `CHAPTERS`) aborts the
whole batch: `none`. -/
def runBatch (env : DispatchEnv) : Nat → Nat → Option (List SendOutcome)
  | 0, _ => some []
  | remaining + 1, k =>
    match pick_chapter env.mode env.chapters (env.chapterRand k) with
    | none => none
    | some chapter =>
      match runBatch env remaining (k + 1) with
      | none => none
      | some rest => some (send_one_question env k chapter :: rest)

/-- Embeds `send_questions` (bot.py lines 116-120): iterates
`range(max(1, QUESTIONS_PER_RUN))` times, each iteration picking a chapter
and delegating to `send_one_question`. -/
def send_questions (env : DispatchEnv) : Option (List SendOutcome) :=
  runBatch env (max 1 env.questionsPerRun).toNat 0

/-! ## Spec-side characterizations and concrete examples -/

/-- Spec-side description of the correct index, following the spec's words:
index `i` names an existing option whose `correct` field is true, and every
option before `i` has a false `correct` field. -/
def isFirstCorrect : List QOption → Nat → Bool
  | [], _ => false
  | o :: _, 0 => o.correct
  | o :: rest, i + 1 => !o.correct && isFirstCorrect rest i

/-- The example question of spec §8: `{id: 1, question: "2+2=?", options:
["3", "4" (correct, explanation "basic addition"), "5"]}`. -/
def qEx : Question :=
  ⟨1, "2+2=?", [⟨"3", false, none⟩, ⟨"4", true, some "basic addition"⟩, ⟨"5", false, none⟩]⟩

/-- A concrete store environment: chapter `"ch1"` exists locally with the
single question `qEx`; no remote base. -/
def envEx : LoadEnv :=
  ⟨fun c => if c = "ch1" then some [qEx] else none, none, fun _ => (200, [])⟩

/-- A concrete dispatcher environment for the spec §8 batch scenario: a run
of 3 over two chapters, with the transport failing on the second send. -/
def envSend : DispatchEnv :=
  ⟨3, "random", ["ch1", "ch2"], fun k => k, fun _ => 0,
    fun c => if c = "ch1" then Except.ok [qEx] else Except.error .notFound,
    fun k => k != 1⟩

/-! ## Lemmas about decimal printing and parsing -/

theorem digitChar_isDigit (d : Nat) : (digitChar d).isDigit = true := by
  rcases d with _ | _ | _ | _ | _ | _ | _ | _ | _ | _ <;> rfl

theorem digitVal_digitChar {d : Nat} (h : d < 10) : digitVal (digitChar d) = d := by
  interval_cases d <;> rfl

theorem isDigit_ne_underscore {c : Char} (h : c.isDigit = true) : c ≠ '_' := by
  intro he
  subst he
  simp [Char.isDigit] at h

theorem isDigit_ne_sign {c : Char} (h : c.isDigit = true) : c ≠ '+' ∧ c ≠ '-' := by
  constructor <;> (intro he; subst he; simp [Char.isDigit] at h)

theorem isDigit_ne_sep {c : Char} (h : c.isDigit = true) : c ≠ '|' := by
  intro he
  subst he
  simp [Char.isDigit] at h

theorem isDigit_not_whitespace {c : Char} (h : c.isDigit = true) :
    c.isWhitespace = false := by
  cases hw : c.isWhitespace
  · rfl
  · simp only [Char.isWhitespace, Bool.or_eq_true, decide_eq_true_eq] at hw
    rcases hw with ((rfl | rfl) | rfl) | rfl <;> simp [Char.isDigit] at h

theorem natToDigitsRev_ne_nil (n : Nat) : natToDigitsRev n ≠ [] := by
  rw [natToDigitsRev]
  split <;> simp

theorem natToDigitsRev_mem_isDigit (n : Nat) :
    ∀ c ∈ natToDigitsRev n, c.isDigit = true := by
  induction n using Nat.strong_induction_on with
  | _ n ih =>
    rw [natToDigitsRev]
    split
    · intro c hc
      rw [List.mem_singleton] at hc
      subst hc
      exact digitChar_isDigit _
    · intro c hc
      rcases List.mem_cons.mp hc with h | h
      · subst h; exact digitChar_isDigit _
      · exact ih (n / 10) (Nat.div_lt_self (by omega) (by omega)) c h

theorem foldl_digitStep_natToDigitsRev (n : Nat) :
    ∀ acc : Nat, List.foldl digitStep acc (natToDigitsRev n).reverse =
      acc * 10 ^ (natToDigitsRev n).length + n := by
  induction n using Nat.strong_induction_on with
  | _ n ih =>
    intro acc
    rw [natToDigitsRev]
    split
    · next h =>
      simp [digitStep, digitVal_digitChar h]
      omega
    · next h =>
      have hlt : n / 10 < n := Nat.div_lt_self (by omega) (by omega)
      simp only [List.reverse_cons, List.foldl_append, List.length_cons]
      rw [ih (n / 10) hlt acc]
      simp only [List.foldl_cons, List.foldl_nil, digitStep,
        digitVal_digitChar (Nat.mod_lt n (by omega))]
      have hmod : 10 * (n / 10) + n % 10 = n := Nat.div_add_mod n 10
      have hpow : acc * 10 ^ ((natToDigitsRev (n / 10)).length + 1) =
          acc * 10 ^ (natToDigitsRev (n / 10)).length * 10 := by
        rw [pow_succ]; ring
      omega

theorem pyDigitsGo_all_digits :
    ∀ (l : List Char) (acc : Nat), (∀ c ∈ l, c.isDigit = true) →
      pyDigitsGo acc l = some (List.foldl digitStep acc l) := by
  intro l
  induction l with
  | nil => intro acc _; rfl
  | cons c rest ih =>
    intro acc hall
    have hc : c.isDigit = true := hall c (List.mem_cons_self _ _)
    rw [pyDigitsGo.eq_def]
    simp only [if_neg (isDigit_ne_underscore hc), if_pos hc, List.foldl_cons]
    exact ih (digitStep acc c) (fun x hx => hall x (List.mem_cons_of_mem _ hx))

theorem natToDigits_ne_nil (n : Nat) : natToDigits n ≠ [] := by
  unfold natToDigits
  simpa using natToDigitsRev_ne_nil n

theorem natToDigits_mem_isDigit (n : Nat) :
    ∀ c ∈ natToDigits n, c.isDigit = true := by
  intro c hc
  exact natToDigitsRev_mem_isDigit n c (List.mem_reverse.mp hc)

theorem pyDigits_natToDigits (n : Nat) : pyDigits (natToDigits n) = some n := by
  have hmem := natToDigits_mem_isDigit n
  rcases he : natToDigits n with _ | ⟨c, rest⟩
  · exact absurd he (natToDigits_ne_nil n)
  · rw [he] at hmem
    have hc : c.isDigit = true := hmem c (List.mem_cons_self _ _)
    rw [pyDigits, if_pos hc,
      pyDigitsGo_all_digits rest (digitVal c) (fun x hx => hmem x (List.mem_cons_of_mem _ hx))]
    have hfold : List.foldl digitStep (digitVal c) rest =
        List.foldl digitStep 0 (c :: rest) := by
      simp [List.foldl_cons, digitStep]
    rw [hfold, ← he]
    unfold natToDigits
    rw [foldl_digitStep_natToDigitsRev n 0]
    simp

theorem dropLeading_of_none {p : Char → Bool} {l : List Char}
    (h : ∀ c ∈ l, p c = false) : dropLeading p l = l := by
  cases l with
  | nil => rfl
  | cons c rest =>
    rw [dropLeading, if_neg]
    simp [h c (List.mem_cons_self _ _)]

theorem dropWhile_of_none {p : Char → Bool} {l : List Char}
    (h : ∀ c ∈ l, p c = false) : l.dropWhile p = l := by
  cases l with
  | nil => rfl
  | cons c rest =>
    rw [List.dropWhile_cons, if_neg]
    simp [h c (List.mem_cons_self _ _)]

theorem trimChars_of_no_ws {l : List Char}
    (h : ∀ c ∈ l, c.isWhitespace = false) : trimChars l = l := by
  unfold trimChars
  rw [dropLeading_of_none h,
    dropWhile_of_none (fun c hc => h c (List.mem_reverse.mp hc)),
    List.reverse_reverse]

theorem intToChars_mem {i : Int} {c : Char} (hc : c ∈ intToChars i) :
    c.isDigit = true ∨ c = '-' := by
  unfold intToChars at hc
  split at hc
  · rcases List.mem_cons.mp hc with h | h
    · exact Or.inr h
    · exact Or.inl (natToDigits_mem_isDigit _ c h)
  · exact Or.inl (natToDigits_mem_isDigit _ c hc)

theorem intToChars_no_sep (i : Int) : '|' ∉ intToChars i := by
  intro hc
  rcases intToChars_mem hc with h | h
  · exact isDigit_ne_sep h rfl
  · exact absurd h (by decide)

theorem intToChars_no_ws (i : Int) : ∀ c ∈ intToChars i, c.isWhitespace = false := by
  intro c hc
  rcases intToChars_mem hc with h | h
  · exact isDigit_not_whitespace h
  · subst h; rfl

theorem pyIntChars_cons {c : Char} {rest : List Char}
    (h : trimChars (c :: rest) = c :: rest) :
    pyIntChars (c :: rest) =
      if c = '+' then (pyDigits rest).map Int.ofNat
      else if c = '-' then (pyDigits rest).map (fun n => -(Int.ofNat n))
      else (pyDigits (c :: rest)).map Int.ofNat := by
  rw [pyIntChars.eq_def, h]

theorem pyIntChars_intToChars (i : Int) : pyIntChars (intToChars i) = some i := by
  have htrim := trimChars_of_no_ws (intToChars_no_ws i)
  by_cases hi : i < 0
  · have he : intToChars i = '-' :: natToDigits i.natAbs := by
      unfold intToChars; rw [if_pos hi]
    rw [he] at htrim ⊢
    rw [pyIntChars_cons htrim, if_neg (by decide), if_pos rfl, pyDigits_natToDigits,
      Option.map_some']
    exact congrArg some (by rw [Int.ofNat_eq_coe]; omega)
  · have he : intToChars i = natToDigits i.toNat := by
      unfold intToChars; rw [if_neg hi]
    rcases hd : natToDigits i.toNat with _ | ⟨c, rest⟩
    · exact absurd hd (natToDigits_ne_nil _)
    · have hc : c.isDigit = true := by
        have hmem := natToDigits_mem_isDigit i.toNat
        rw [hd] at hmem
        exact hmem c (List.mem_cons_self _ _)
      have hsig := isDigit_ne_sign hc
      rw [he, hd] at htrim ⊢
      rw [pyIntChars_cons htrim, if_neg hsig.1, if_neg hsig.2, ← hd, pyDigits_natToDigits,
        Option.map_some']
      exact congrArg some (by rw [Int.ofNat_eq_coe]; omega)

/-! ## Lemmas about splitting on the delimiter -/

theorem splitOnChar_no_sep {sep : Char} :
    ∀ {l : List Char}, sep ∉ l → splitOnChar sep l = [l] := by
  intro l
  induction l with
  | nil => intro _; rfl
  | cons c rest ih =>
    intro h
    have hc : ¬ c = sep := fun he => h (he ▸ List.mem_cons_self _ _)
    rw [splitOnChar, if_neg hc, ih (fun hm => h (List.mem_cons_of_mem _ hm))]

theorem splitOnChar_append {sep : Char} :
    ∀ {xs : List Char} (rest : List Char), sep ∉ xs →
      splitOnChar sep (xs ++ sep :: rest) = xs :: splitOnChar sep rest := by
  intro xs
  induction xs with
  | nil =>
    intro rest _
    rw [List.nil_append, splitOnChar, if_pos rfl]
  | cons c xs ih =>
    intro rest h
    have hc : ¬ c = sep := fun he => h (he ▸ List.mem_cons_self _ _)
    rw [List.cons_append, splitOnChar, if_neg hc,
      ih rest (fun hm => h (List.mem_cons_of_mem _ hm))]

/-- C1: encoding a choice token as `"chapter|qid|index"` and decoding it by
splitting on the delimiter and parsing the two numeric fields returns
exactly the original `(chapter, question_id, option_index)` triple, for every
chapter name not containing the delimiter character and all integer id and
index. -/
theorem token_round_trip (chapter : String) (qid idx : Int) (h : '|' ∉ chapter.data) :
    decodeToken (encodeToken chapter qid idx) = some (chapter, qid, idx) := by
  unfold encodeToken decodeToken
  have hdata : (String.mk (chapter.data ++ ('|' :: (intToChars qid ++ ('|' :: intToChars idx))))).data
      = chapter.data ++ ('|' :: (intToChars qid ++ ('|' :: intToChars idx))) := rfl
  rw [hdata, splitOnChar_append _ h, splitOnChar_append _ (intToChars_no_sep qid),
    splitOnChar_no_sep (intToChars_no_sep idx)]
  simp only [pyIntChars_intToChars]

/-- Witness for C1 at the concrete triple `("ch1", 1, 0)`. -/
theorem token_round_trip_witness :
    '|' ∉ "ch1".data ∧ decodeToken (encodeToken "ch1" 1 0) = some ("ch1", 1, 0) :=
  ⟨by decide, token_round_trip "ch1" 1 0 (by decide)⟩

/-! ## Lemmas about the result renderer -/

theorem correct_index_eq_some_iff :
    ∀ (opts : List QOption) (i : Nat),
      correct_index opts = some i ↔ isFirstCorrect opts i = true := by
  intro opts
  induction opts with
  | nil => intro i; simp [correct_index, isFirstCorrect]
  | cons o rest ih =>
    intro i
    by_cases ho : o.correct
    · cases i with
      | zero => simp [correct_index, isFirstCorrect, ho]
      | succ j => simp [correct_index, isFirstCorrect, ho]
    · cases i with
      | zero =>
        simp only [correct_index, if_neg ho, isFirstCorrect]
        simp [Option.map_eq_some', ho]
      | succ j =>
        have ho' : o.correct = false := by
          cases hoc : o.correct
          · rfl
          · exact absurd hoc ho
        simp only [correct_index, if_neg ho, isFirstCorrect, Bool.and_eq_true,
          Bool.not_eq_true', Option.map_eq_some']
        constructor
        · rintro ⟨a, ha, hj⟩
          have haj : a = j := by omega
          subst haj
          exact ⟨ho', (ih a).mp ha⟩
        · rintro ⟨_, hfc⟩
          exact ⟨j, (ih j).mpr hfc, rfl⟩

theorem correct_index_eq_none_iff :
    ∀ opts : List QOption, correct_index opts = none ↔ ∀ o ∈ opts, o.correct = false := by
  intro opts
  induction opts with
  | nil => simp [correct_index]
  | cons o rest ih =>
    by_cases ho : o.correct
    · simp [correct_index, ho]
    · simp [correct_index, ho, ih]

theorem markerFor_eq_spec (opts : List QOption) (s : Int) (i : Nat) :
    markerFor (correct_index opts) s i =
      if isFirstCorrect opts i then "✅" else if (i : Int) = s then "❌" else "▫️" := by
  unfold markerFor
  by_cases h : correct_index opts = some i
  · rw [if_pos h, if_pos ((correct_index_eq_some_iff opts i).mp h)]
  · have hf : ¬ isFirstCorrect opts i = true :=
      fun hf => h ((correct_index_eq_some_iff opts i).mpr hf)
    rw [if_neg h, if_neg hf]

theorem markerFor_ne_correct_of_none {opts : List QOption} (h : correct_index opts = none)
    (s : Int) (i : Nat) : markerFor (correct_index opts) s i ≠ "✅" := by
  rw [h]
  unfold markerFor
  rw [if_neg (by simp)]
  split <;> decide

theorem optionLinesFrom_length (ci : Option Nat) (s : Int) :
    ∀ (opts : List QOption) (i : Nat), (optionLinesFrom ci s i opts).length = opts.length := by
  intro opts
  induction opts with
  | nil => intro i; rfl
  | cons o rest ih => intro i; simp [optionLinesFrom, ih]

theorem optionLinesFrom_get? (ci : Option Nat) (s : Int) :
    ∀ (opts : List QOption) (i j : Nat),
      (optionLinesFrom ci s i opts).get? j =
        (opts.get? j).map (fun o => markerFor ci s (i + j) ++ " " ++ o.text) := by
  intro opts
  induction opts with
  | nil => intro i j; simp [optionLinesFrom]
  | cons o rest ih =>
    intro i j
    cases j with
    | zero => simp [optionLinesFrom]
    | succ j =>
      rw [show i + (j + 1) = (i + 1) + j from by omega]
      simp only [optionLinesFrom, List.get?_cons_succ]
      exact ih (i + 1) j

theorem optionLines_length (opts : List QOption) (s : Int) :
    (optionLines opts s).length = opts.length :=
  optionLinesFrom_length _ _ opts 0

theorem optionLines_get? (opts : List QOption) (s : Int) (j : Nat) :
    (optionLines opts s).get? j =
      (opts.get? j).map (fun o => markerFor (correct_index opts) s j ++ " " ++ o.text) := by
  have h := optionLinesFrom_get? (correct_index opts) s opts 0 j
  simpa [optionLines] using h

theorem pyGet_oob {α : Type} (xs : List α) (i : Int) (h : (xs.length : Int) ≤ i) :
    pyGet xs i = none := by
  unfold pyGet
  rw [if_pos (le_trans (by positivity) h), List.get?_eq_none.mpr (by omega)]

theorem pyGet_inrange {α : Type} (xs : List α) (i : Int)
    (h0 : 0 ≤ i) (h1 : i < (xs.length : Int)) :
    pyGet xs i = xs.get? i.toNat ∧ ∃ a, xs.get? i.toNat = some a := by
  unfold pyGet
  rw [if_pos h0]
  refine ⟨rfl, ?_⟩
  rcases hx : xs.get? i.toNat with _ | a
  · have := List.get?_eq_none.mp hx
    omega
  · exact ⟨a, rfl⟩

theorem pyGet_negrange {α : Type} (xs : List α) (i : Int)
    (h1 : -(xs.length : Int) ≤ i) (h2 : i ≤ -1) :
    pyGet xs i = xs.get? ((xs.length : Int) + i).toNat ∧
      ∃ a, xs.get? ((xs.length : Int) + i).toNat = some a := by
  unfold pyGet
  rw [if_neg (by omega), if_pos (by omega),
    show xs.length - (-i).toNat = ((xs.length : Int) + i).toNat from by omega]
  refine ⟨rfl, ?_⟩
  rcases hx : xs.get? ((xs.length : Int) + i).toNat with _ | a
  · have := List.get?_eq_none.mp hx
    omega
  · exact ⟨a, rfl⟩

theorem joinLines_concat : ∀ (xs : List String) (y : String), xs ≠ [] →
    joinLines (xs ++ [y]) = joinLines xs ++ ("\n" ++ y) := by
  intro xs
  induction xs with
  | nil => intro y h; exact absurd rfl h
  | cons x xs ih =>
    intro y _
    cases xs with
    | nil =>
      show x ++ "\n" ++ y = x ++ ("\n" ++ y)
      rw [String.append_assoc]
    | cons z zs =>
      show x ++ "\n" ++ joinLines ((z :: zs) ++ [y]) = (x ++ "\n" ++ joinLines (z :: zs)) ++ ("\n" ++ y)
      rw [ih y (by simp), ← String.append_assoc]

theorem format_result_text_some {q : Question} {s : Int} {o : QOption}
    (h : pyGet q.options s = some o) :
    format_result_text q s = .ok (joinLines (("<b>❓ " ++ q.question ++ "</b>\n") ::
      (optionLines q.options s ++ ["\n💡 " ++ o.explanation.getD ""]))) := by
  unfold format_result_text
  rw [h]

theorem format_result_text_none {q : Question} {s : Int}
    (h : pyGet q.options s = none) :
    format_result_text q s = .error .invalidSelection := by
  unfold format_result_text
  rw [h]

theorem format_suffix {q : Question} {s : Int} {o : QOption}
    (h : pyGet q.options s = some o) :
    ∃ pre, format_result_text q s = .ok (pre ++ ("\n💡 " ++ o.explanation.getD "")) := by
  refine ⟨joinLines (("<b>❓ " ++ q.question ++ "</b>\n") :: optionLines q.options s) ++ "\n", ?_⟩
  rw [format_result_text_some h]
  have hsplit : ("<b>❓ " ++ q.question ++ "</b>\n") ::
      (optionLines q.options s ++ ["\n💡 " ++ o.explanation.getD ""]) =
      (("<b>❓ " ++ q.question ++ "</b>\n") :: optionLines q.options s) ++
        ["\n💡 " ++ o.explanation.getD ""] := by simp
  rw [hsplit, joinLines_concat _ _ (by simp), ← String.append_assoc]

/-- C2: for every question and every in-range selected index the renderer
succeeds and produces exactly one line per option in original order; a line
carries the correct-marker iff its index is the first index whose option is
marked correct, the incorrect-marker iff its index equals the selected index
and is not that correct index, and the neutral marker otherwise; and when no
option is marked correct, no index receives the correct-marker for any
selected index. -/
theorem render_marks (q : Question) (selected : Int)
    (h0 : 0 ≤ selected) (h1 : selected < (q.options.length : Int)) :
    (∃ out, format_result_text q selected = Except.ok out) ∧
    (optionLines q.options selected).length = q.options.length ∧
    (∀ i o, q.options.get? i = some o →
      (optionLines q.options selected).get? i =
        some ((if isFirstCorrect q.options i then "✅"
               else if (i : Int) = selected then "❌" else "▫️") ++ " " ++ o.text)) ∧
    ((∀ o ∈ q.options, o.correct = false) →
      ∀ (s : Int) (i : Nat), markerFor (correct_index q.options) s i ≠ "✅") := by
  obtain ⟨hpg, a, ha⟩ := pyGet_inrange q.options selected h0 h1
  refine ⟨⟨_, format_result_text_some (hpg.trans ha)⟩, optionLines_length _ _, ?_, ?_⟩
  · intro i o hio
    rw [optionLines_get?, hio, Option.map_some', markerFor_eq_spec]
  · intro hall s i
    exact markerFor_ne_correct_of_none ((correct_index_eq_none_iff _).mpr hall) s i

/-- Witness for C2 at the spec §8 example question with selected index 1. -/
theorem render_marks_witness :
    (0 : Int) ≤ 1 ∧ (1 : Int) < (qEx.options.length : Int) ∧
      (optionLines qEx.options 1).length = qEx.options.length :=
  ⟨by decide, by decide, (render_marks qEx 1 (by decide) (by decide)).2.1⟩

/-- C3: for every question and every selected index at least the number of
options, the renderer fails with the invalid-selection error and produces no
output besides the error. -/
theorem render_out_of_range (q : Question) (selected : Int)
    (h : (q.options.length : Int) ≤ selected) :
    format_result_text q selected = .error .invalidSelection :=
  format_result_text_none (pyGet_oob _ _ h)

/-- Witness for C3 at the spec §8 example question with selected index 3. -/
theorem render_out_of_range_witness :
    (qEx.options.length : Int) ≤ 3 ∧
      format_result_text qEx 3 = .error .invalidSelection :=
  ⟨by decide, render_out_of_range qEx 3 (by decide)⟩

/-- C4: for every question and every in-range selected index, the rendered
text ends with an explanation line holding the explanation of the selected
option, the empty string substituted when that option has none. -/
theorem render_explains_selected (q : Question) (selected : Int)
    (h0 : 0 ≤ selected) (h1 : selected < (q.options.length : Int)) :
    ∃ o pre, q.options.get? selected.toNat = some o ∧
      format_result_text q selected = .ok (pre ++ ("\n💡 " ++ o.explanation.getD "")) := by
  obtain ⟨hpg, a, ha⟩ := pyGet_inrange q.options selected h0 h1
  obtain ⟨pre, hp⟩ := format_suffix (hpg.trans ha)
  exact ⟨a, pre, ha, hp⟩

/-- Witness for C4 at the spec §8 example question with selected index 0. -/
theorem render_explains_selected_witness :
    (0 : Int) ≤ 0 ∧ (0 : Int) < (qEx.options.length : Int) ∧
      ∃ o pre, qEx.options.get? (0 : Int).toNat = some o ∧
        format_result_text qEx 0 = .ok (pre ++ ("\n💡 " ++ o.explanation.getD "")) :=
  ⟨by decide, by decide, render_explains_selected qEx 0 (by decide) (by decide)⟩

/-- C10: for every question with options and every negative in-range
selected index, the renderer succeeds, no option line carries the
incorrect-marker (each line gets the correct-marker or the neutral marker),
and the appended explanation comes from the option at position
`length + selected`. -/
theorem render_negative_index (q : Question) (selected : Int)
    (h1 : -(q.options.length : Int) ≤ selected) (h2 : selected ≤ -1) :
    (∀ i o, q.options.get? i = some o →
      (optionLines q.options selected).get? i =
        some ((if isFirstCorrect q.options i then "✅" else "▫️") ++ " " ++ o.text)) ∧
    ∃ o pre, q.options.get? ((q.options.length : Int) + selected).toNat = some o ∧
      format_result_text q selected = .ok (pre ++ ("\n💡 " ++ o.explanation.getD "")) := by
  constructor
  · intro i o hio
    rw [optionLines_get?, hio, Option.map_some', markerFor_eq_spec,
      if_neg (show ¬ (i : Int) = selected by omega)]
  · obtain ⟨hpg, a, ha⟩ := pyGet_negrange q.options selected h1 h2
    obtain ⟨pre, hp⟩ := format_suffix (hpg.trans ha)
    exact ⟨a, pre, ha, hp⟩

/-- Witness for C10 at the spec §8 example question with selected index -1. -/
theorem render_negative_index_witness :
    -(qEx.options.length : Int) ≤ -1 ∧ ((-1 : Int) ≤ -1) ∧
      ((∀ i o, qEx.options.get? i = some o →
        (optionLines qEx.options (-1)).get? i =
          some ((if isFirstCorrect qEx.options i then "✅" else "▫️") ++ " " ++ o.text)) ∧
      ∃ o pre, qEx.options.get? ((qEx.options.length : Int) + -1).toNat = some o ∧
        format_result_text qEx (-1) = .ok (pre ++ ("\n💡 " ++ o.explanation.getD ""))) :=
  ⟨by decide, by decide, render_negative_index qEx (-1) (by decide) (by decide)⟩

/-! ## Lemmas about the question store and the callback resolver -/

theorem load_questions_local {env : LoadEnv} {chapter : String} {qs : List Question}
    (h : env.localFile chapter = some qs) : load_questions env chapter = .ok qs := by
  unfold load_questions
  rw [h]

theorem load_questions_nolocal_base {env : LoadEnv} {chapter base : String}
    (hl : env.localFile chapter = none) (hb : env.rawBase = some base) :
    load_questions env chapter =
      if 400 ≤ (env.fetch (base ++ chapter ++ ".json")).1 ∧
          (env.fetch (base ++ chapter ++ ".json")).1 < 600
      then .error (.remoteFetch (env.fetch (base ++ chapter ++ ".json")).1)
      else .ok (env.fetch (base ++ chapter ++ ".json")).2 := by
  unfold load_questions
  rw [hl, hb]

theorem load_questions_nothing {env : LoadEnv} {chapter : String}
    (hl : env.localFile chapter = none) (hb : env.rawBase = none) :
    load_questions env chapter = .error .notFound := by
  unfold load_questions
  rw [hl, hb]

/-- C5: the question store consults the local resource `<chapter>.json`
first, returning its contents without consulting the remote source (the
result is independent of the fetch function and the configured base); when
the local resource is absent and a remote base is configured it fetches
`<base><chapter>.json`, failing with the remote-fetch error exactly on a
non-success HTTP status; and it fails with the not-found error when the
local file is absent and no remote base is configured. -/
theorem load_questions_spec (env : LoadEnv) (chapter : String) :
    (∀ qs, env.localFile chapter = some qs →
      load_questions env chapter = .ok qs ∧
      ∀ (f g : String → Nat × List Question) (b1 b2 : Option String),
        load_questions ⟨env.localFile, b1, f⟩ chapter =
          load_questions ⟨env.localFile, b2, g⟩ chapter) ∧
    (∀ base, env.localFile chapter = none → env.rawBase = some base →
      (400 ≤ (env.fetch (base ++ chapter ++ ".json")).1 ∧
          (env.fetch (base ++ chapter ++ ".json")).1 < 600 →
        load_questions env chapter =
          .error (.remoteFetch (env.fetch (base ++ chapter ++ ".json")).1)) ∧
      (¬(400 ≤ (env.fetch (base ++ chapter ++ ".json")).1 ∧
          (env.fetch (base ++ chapter ++ ".json")).1 < 600) →
        load_questions env chapter = .ok (env.fetch (base ++ chapter ++ ".json")).2)) ∧
    (env.localFile chapter = none → env.rawBase = none →
      load_questions env chapter = .error .notFound) := by
  refine ⟨?_, ?_, fun hl hb => load_questions_nothing hl hb⟩
  · intro qs h
    exact ⟨load_questions_local h, fun f g b1 b2 =>
      (@load_questions_local ⟨env.localFile, b1, f⟩ chapter qs h).trans
        (@load_questions_local ⟨env.localFile, b2, g⟩ chapter qs h).symm⟩
  · intro base hl hb
    constructor
    · intro hst
      rw [load_questions_nolocal_base hl hb, if_pos hst]
    · intro hst
      rw [load_questions_nolocal_base hl hb, if_neg hst]

/-- Witness for C5: with `envEx`, chapter `"ch1"` is served from the local
file. -/
theorem load_questions_spec_witness :
    envEx.localFile "ch1" = some [qEx] ∧ load_questions envEx "ch1" = .ok [qEx] :=
  ⟨rfl, ((load_questions_spec envEx "ch1").1 [qEx] rfl).1⟩

/-- C6: every callback token that does not split into exactly three fields,
or whose numeric fields do not parse as integers, is rejected by the
decoder, and the resolver converts the failure into the generic user-visible
error message instead of crashing. -/
theorem callback_malformed (env : LoadEnv) (data : String)
    (h : malformedToken data = true) :
    decodeToken data = none ∧
      answer_callback env data = "An error occurred while processing your answer." := by
  have hd : decodeToken data = none := by
    rcases e : splitOnChar '|' data.data with _ | ⟨a, _ | ⟨b, _ | ⟨c, _ | ⟨d, rest⟩⟩⟩⟩ <;>
      simp only [malformedToken, e] at h <;> simp only [decodeToken, e]
    rcases hb : pyIntChars b with _ | qid <;> rcases hcc : pyIntChars c with _ | idx <;>
      simp [hb, hcc] at h ⊢
  refine ⟨hd, ?_⟩
  unfold answer_callback
  rw [hd]

/-- Witness for C6 at the malformed token `"a|b|c"`. -/
theorem callback_malformed_witness :
    malformedToken "a|b|c" = true ∧
      answer_callback envEx "a|b|c" = "An error occurred while processing your answer." :=
  ⟨by decide, (callback_malformed envEx "a|b|c" (by decide)).2⟩

/-- C7: for a well-formed token whose chapter loads but whose question id
matches no question in the reloaded chapter, the resolver answers with the
user-visible not-found message instead of failing. -/
theorem callback_question_missing (env : LoadEnv) (data chapter : String)
    (qid idx : Int) (qs : List Question)
    (h1 : decodeToken data = some (chapter, qid, idx))
    (h2 : load_questions env chapter = .ok qs)
    (h3 : ∀ q ∈ qs, q.id ≠ qid) :
    answer_callback env data = "Question data not found." := by
  have hfind : qs.find? (fun qq => qq.id == qid) = none :=
    List.find?_eq_none.mpr fun x hx hbeq => h3 x hx (by simpa using hbeq)
  simp only [answer_callback, h1, h2, hfind]

/-- Witness for C7: token `"ch1|5|0"` is well-formed but chapter `"ch1"` of
`envEx` has no question with id 5. -/
theorem callback_question_missing_witness :
    decodeToken "ch1|5|0" = some ("ch1", 5, 0) ∧
      load_questions envEx "ch1" = .ok [qEx] ∧
      (∀ q ∈ [qEx], q.id ≠ 5) ∧
      answer_callback envEx "ch1|5|0" = "Question data not found." :=
  ⟨by decide, rfl, by decide,
    callback_question_missing envEx "ch1|5|0" "ch1" 5 0 [qEx] (by decide) rfl (by decide)⟩

/-! ## Lemmas about the selector and the dispatcher -/

/-- C8: when the configured mode is not `"random"` (including the declared
`"sequential"` mode), every pick returns the first configured chapter name,
independently of the random draw and of how many picks happened before — the
selector never advances to the next chapter. -/
theorem pick_chapter_nonrandom (mode : String) (chapters : List String) (r r' : Nat)
    (hm : mode ≠ "random") (hc : chapters ≠ []) :
    ∃ first, chapters.get? 0 = some first ∧
      pick_chapter mode chapters r = some first ∧
      pick_chapter mode chapters r' = some first := by
  rcases chapters with _ | ⟨c, rest⟩
  · exact absurd rfl hc
  · refine ⟨c, rfl, ?_, ?_⟩ <;> (unfold pick_chapter; rw [if_neg hm]; rfl)

/-- Witness for C8 in `"sequential"` mode over two chapters with two
different random draws. -/
theorem pick_chapter_nonrandom_witness :
    ("sequential" : String) ≠ "random" ∧ (["ch1", "ch2"] : List String) ≠ [] ∧
      ∃ first, (["ch1", "ch2"] : List String).get? 0 = some first ∧
        pick_chapter "sequential" ["ch1", "ch2"] 0 = some first ∧
        pick_chapter "sequential" ["ch1", "ch2"] 1 = some first :=
  ⟨by decide, by decide,
    pick_chapter_nonrandom "sequential" ["ch1", "ch2"] 0 1 (by decide) (by decide)⟩

theorem pick_chapter_isSome (mode : String) (chapters : List String) (r : Nat)
    (hc : chapters ≠ []) : ∃ c, pick_chapter mode chapters r = some c := by
  have hlen : 0 < chapters.length := List.length_pos.mpr hc
  unfold pick_chapter
  split
  · rcases hx : chapters.get? (r % chapters.length) with _ | c
    · have h1 := List.get?_eq_none.mp hx
      have h2 := Nat.mod_lt r hlen
      omega
    · exact ⟨c, rfl⟩
  · rcases hx : chapters.get? 0 with _ | c
    · have h1 := List.get?_eq_none.mp hx
      omega
    · exact ⟨c, rfl⟩

theorem runBatch_spec (env : DispatchEnv) (hc : env.chapters ≠ []) :
    ∀ (remaining k : Nat), ∃ outs, runBatch env remaining k = some outs ∧
      outs.length = remaining ∧
      ∀ j, j < remaining →
        ∃ chapter, pick_chapter env.mode env.chapters (env.chapterRand (k + j)) = some chapter ∧
          outs.get? j = some (send_one_question env (k + j) chapter) := by
  intro remaining
  induction remaining with
  | zero => intro k; exact ⟨[], rfl, rfl, fun j hj => absurd hj (by omega)⟩
  | succ m ih =>
    intro k
    obtain ⟨c, hcpick⟩ := pick_chapter_isSome env.mode env.chapters (env.chapterRand k) hc
    obtain ⟨outs, hrun, hlen, hget⟩ := ih (k + 1)
    refine ⟨send_one_question env k c :: outs, ?_, by simp [hlen], ?_⟩
    · rw [runBatch, hcpick, hrun]
    · intro j hj
      cases j with
      | zero => exact ⟨c, by simpa using hcpick, by simp⟩
      | succ j =>
        obtain ⟨ch, hp, hg⟩ := hget j (by omega)
        rw [show k + (j + 1) = (k + 1) + j from by omega]
        exact ⟨ch, hp, by simpa using hg⟩

/-- C9: the batch run performs exactly `max 1 QUESTIONS_PER_RUN` send
iterations — the count is clamped to at least one — and every iteration
produces its own outcome for any load or transport behavior, so a failing
send never aborts the remaining iterations. -/
theorem send_questions_attempts_all (env : DispatchEnv) (hc : env.chapters ≠ []) :
    ∃ outs, send_questions env = some outs ∧
      outs.length = (max 1 env.questionsPerRun).toNat ∧
      1 ≤ (max 1 env.questionsPerRun).toNat ∧
      ∀ k, k < (max 1 env.questionsPerRun).toNat →
        ∃ chapter, pick_chapter env.mode env.chapters (env.chapterRand k) = some chapter ∧
          outs.get? k = some (send_one_question env k chapter) := by
  obtain ⟨outs, hrun, hlen, hget⟩ := runBatch_spec env hc (max 1 env.questionsPerRun).toNat 0
  have hone : (1 : Int) ≤ max 1 env.questionsPerRun := le_max_left 1 _
  refine ⟨outs, hrun, hlen, by omega, ?_⟩
  intro k hk
  obtain ⟨ch, hp, hg⟩ := hget k hk
  exact ⟨ch, by simpa using hp, by simpa using hg⟩

/-- Witness for C9 at the spec §8 scenario environment: a run of 3 with two
chapters and the transport failing on the second send. -/
theorem send_questions_attempts_all_witness :
    envSend.chapters ≠ [] ∧
      ∃ outs, send_questions envSend = some outs ∧
        outs.length = (max 1 envSend.questionsPerRun).toNat ∧
        1 ≤ (max 1 envSend.questionsPerRun).toNat ∧
        ∀ k, k < (max 1 envSend.questionsPerRun).toNat →
          ∃ chapter, pick_chapter envSend.mode envSend.chapters (envSend.chapterRand k) = some chapter ∧
            outs.get? k = some (send_one_question envSend k chapter) :=
  ⟨by decide, send_questions_attempts_all envSend (by decide)⟩

end QuizBot
